import Mathlib

/-!
Verification of the PDF text-cleaning core of this repository
(`main.py`), shallowly embedded in Lean 4.

Modelling conventions:
* Python strings are modelled by `String` / `List Char`; the character
  classes of the regexes involved (`\w`, `\s`, `\d`) are modelled on their
  ASCII behaviour.
* Each `re.sub` call of `extract_and_clean_text_from_pdf` is embedded as a
  left-to-right scanner that mirrors `re.sub`'s leftmost, non-overlapping
  replacement discipline for its (backtracking-free) pattern.
* Fallible code returns `Except`; the page texts supplied by the PDF
  reading backend are the function's input.
-/

namespace PdfSummarizer

/-- ASCII model of Python's whitespace class `\s` (and of `str.strip`'s
whitespace set): space, tab, newline, carriage return, vertical tab
(code 11), form feed (code 12). -/
def isPySpace (c : Char) : Bool :=
  c == ' ' || c == '\t' || c == '\n' || c == '\r' ||
  c == Char.ofNat 11 || c == Char.ofNat 12

/-- ASCII model of the regex class `\w`: letters, digits and underscore. -/
def isWordChar (c : Char) : Bool :=
  c.isAlphanum || c == '_'

/-- `re.sub(r'\n+', ' ', s)` (main.py line 30): every maximal run of one or
more newline characters is replaced by a single space.  The scanner emits a
space at the last newline of a run and drops the earlier ones. -/
def collapseNewlines : List Char → List Char
  | [] => []
  | c :: rest =>
    if c = '\n' then
      if rest.head? = some '\n' then collapseNewlines rest
      else ' ' :: collapseNewlines rest
    else c :: collapseNewlines rest

/-- Scanner for `re.sub(r'(\w+)-\s+(\w+)', r'\1\2', s)` (main.py line 32),
with explicit fuel (one unit per scanning step; `fuel = length` always
suffices, see `hyphenMerge`).  At each position, a match requires: a run of
word characters, then a hyphen, then a nonempty run of whitespace, then at
least one word character.  On a match the hyphen and the whitespace are
deleted and scanning resumes after the second word run, exactly as
`re.sub` resumes after the end of a leftmost match; otherwise one
character is emitted. -/
def hyphenMergeAux : Nat → List Char → List Char
  | 0, l => l
  | _ + 1, [] => []
  | fuel + 1, c :: rest =>
    let l := c :: rest
    let w1 := l.takeWhile isWordChar
    let r1 := l.dropWhile isWordChar
    let ws := r1.tail.takeWhile isPySpace
    let r3 := r1.tail.dropWhile isPySpace
    let w2 := r3.takeWhile isWordChar
    if isWordChar c ∧ r1.head? = some '-' ∧ ws ≠ [] ∧ w2 ≠ [] then
      w1 ++ w2 ++ hyphenMergeAux fuel (r3.dropWhile isWordChar)
    else
      c :: hyphenMergeAux fuel rest

/-- The hyphen-rejoining pass of main.py line 32. -/
def hyphenMerge (l : List Char) : List Char :=
  hyphenMergeAux l.length l

/-- Scanner for `re.sub(r'\s*\d+\s*', ' ', s)` (main.py line 34), with
explicit fuel.  At each position, a match requires: an optional run of
whitespace, then a nonempty run of digits, then an optional run of
whitespace; the whole match is replaced by one space and scanning resumes
after it.  Otherwise one character is emitted. -/
def digitStripAux : Nat → List Char → List Char
  | 0, l => l
  | _ + 1, [] => []
  | fuel + 1, c :: rest =>
    let l := c :: rest
    let r1 := l.dropWhile isPySpace
    if r1.takeWhile Char.isDigit ≠ [] then
      ' ' :: digitStripAux fuel ((r1.dropWhile Char.isDigit).dropWhile isPySpace)
    else
      c :: digitStripAux fuel rest

/-- The page-number-removal pass of main.py line 34. -/
def digitStrip (l : List Char) : List Char :=
  digitStripAux l.length l

/-- Python `str.strip()` (main.py line 36): remove leading and trailing
whitespace. -/
def stripChars (l : List Char) : List Char :=
  ((l.dropWhile isPySpace).reverse.dropWhile isPySpace).reverse

/-- A string has no leading and no trailing whitespace (spec-side
predicate used to state what `str.strip()` guarantees about the
output). -/
def noEdgeWhitespace (s : String) : Bool :=
  (s.data.head?.all fun c => !isPySpace c) && (s.data.getLast?.all fun c => !isPySpace c)

/-- The whole cleaning pipeline of main.py lines 30-36, in source order:
newline collapsing, hyphen rejoining, digit stripping, final strip. -/
def cleanText (l : List Char) : List Char :=
  stripChars (digitStrip (hyphenMerge (collapseNewlines l)))

/-- The two `ValueError`s raised by `extract_and_clean_text_from_pdf`
before any cleaning happens: `"PDF contains no pages or is unreadable."`
(main.py line 15) and `"No readable text found in PDF."` (line 24).  The
spec groups both under the name `EmptyDocumentError`. -/
inductive NormalizeError where
  | noPages
  | noReadableText
deriving DecidableEq, Repr

/-- The spec's `EmptyDocumentError` condition: either of the two
no-readable-text errors of the source. -/
def EmptyDocumentError (e : NormalizeError) : Prop :=
  e = NormalizeError.noPages ∨ e = NormalizeError.noReadableText

/-- The spec's `normalize`: main.py lines 14-36 of
`extract_and_clean_text_from_pdf`, with the per-page texts produced by the
PDF backend as input.  Faithful to the source: pages that are the empty
string are dropped (Python truthiness of `if text:` on line 20), the rest
are joined with `"\n"` (line 26) and cleaned (lines 30-36). -/
def normalize (pages : List String) : Except NormalizeError String :=
  if pages = [] then .error .noPages
  else if pages.filter (fun t => t ≠ "") = [] then .error .noReadableText
  else .ok (String.mk
    (cleanText (String.intercalate "\n" (pages.filter (fun t => t ≠ ""))).data))

/-- The message of the `ValueError` re-raised at main.py line 41. -/
def genericErrorMessage : String :=
  "Unable to extract text from the PDF. Please upload a readable document."

/-- `extract_and_clean_text_from_pdf` (main.py lines 7-41) with the PDF
reading backend abstracted: the backend either fails with some exception
message or yields the list of per-page texts.  The `except Exception`
handler at lines 38-41 turns every failure — a backend exception as well as
the two internal `ValueError`s — into the one generic `ValueError` whose
message is `genericErrorMessage`. -/
def extract_and_clean_text_from_pdf (backendPages : Except String (List String)) :
    Except String String :=
  match backendPages with
  | .error _ => .error genericErrorMessage
  | .ok pages =>
    match normalize pages with
    | .error _ => .error genericErrorMessage
    | .ok s => .ok s

/-- The fixed instruction text of `summarize_text` before the interpolated
document (main.py line 50). -/
def summaryInstructionBefore : String :=
  "Please summarize the following document, focusing on key ideas and important points. Ensure the summary is clear, concise, and structured with short, readable paragraphs:\n\n"

/-- The fixed instruction text of `summarize_text` after the interpolated
document (main.py line 50). -/
def summaryInstructionAfter : String :=
  "\n\nSummary:"

/-- `summarize_text` (main.py lines 43-55): the f-string
`f"...:\n\n{text}\n\nSummary:"` is returned unchanged; interpolation is
string concatenation. -/
def summarize_text (text : String) : String :=
  "Please summarize the following document, focusing on key ideas and important points. Ensure the summary is clear, concise, and structured with short, readable paragraphs:\n\n"
    ++ text ++ "\n\nSummary:"

/-- The fixed instruction text of `generate_quiz` before the interpolated
document (main.py line 64). -/
def quizInstructionBefore : String :=
  "Based on the following text, please generate a quiz. It can include Multiple Choice Questions (MCQs) or mixed-style questions. Focus on important facts and concepts:\n\n"

/-- The fixed instruction text of `generate_quiz` after the interpolated
document (main.py line 64). -/
def quizInstructionAfter : String :=
  "\n\nQuiz:"

/-- `generate_quiz` (main.py lines 57-69): `if not original_text` on a
Python string is the emptiness test. -/
def generate_quiz (original_text : String) : List String :=
  if original_text = "" then ["No quiz can be generated for empty text."]
  else
    ["Based on the following text, please generate a quiz. It can include Multiple Choice Questions (MCQs) or mixed-style questions. Focus on important facts and concepts:\n\n"
      ++ original_text ++ "\n\nQuiz:"]

/-- The branch points of one run of `handle_message` (main.py lines
79-167) that decide the fate of the temporary file. -/
structure UploadEnv where
  /-- `message.elements` contains a file with mime `application/pdf`
  (line 81). -/
  hasPdfFile : Bool
  /-- `pdf_file.content is None` is false (line 99). -/
  contentAvailable : Bool
  /-- `tmpfile.write(pdf_file.content)` (line 108) returns normally
  rather than raising. -/
  writeSucceeds : Bool
  /-- Outcome of `extract_and_clean_text_from_pdf(tmp_pdf_path)`
  (line 111): a `ValueError` message, or the cleaned text. -/
  extractOutcome : Except String String
deriving Repr

/-- Whether the temporary file created by `handle_message` still exists on
disk after the handler returns.  The model follows the source line by
line:
* no PDF among the message elements (line 82): early return, no temporary
  file was ever created — nothing remains;
* `pdf_file.content is None` (line 99): `return` inside `try` before
  `tempfile.NamedTemporaryFile` ran; the `finally` block's
  `'tmp_pdf_path' in locals()` test (line 166) is false and nothing was
  created — nothing remains;
* `NamedTemporaryFile(delete=False)` (line 107) creates the file on disk
  at construction.  If `tmpfile.write` raises (line 108), the assignment
  `tmp_pdf_path = tmpfile.name` (line 109) never runs, the exception is
  caught by `except Exception` (line 159), and in `finally` the
  `'tmp_pdf_path' in locals()` test is false — the file REMAINS on disk;
* if the write succeeds, `tmp_pdf_path` is bound; whether
  `extract_and_clean_text_from_pdf` raises `ValueError` (caught at line
  154) or returns text, the `finally` block sees `tmp_pdf_path` bound and
  the file existing, and `os.remove` deletes it — nothing remains. -/
def handle_message (env : UploadEnv) : Bool :=
  if !env.hasPdfFile then false
  else if !env.contentAvailable then false
  else if !env.writeSucceeds then true
  else
    match env.extractOutcome with
    | .error _ => false
    | .ok _ => false

/-- Follows the spec's words for claim C3 ("strip standalone runs of
digits surrounded by whitespace, replacing each such run together with its
surrounding whitespace by a single space"), for comparison with
`digitStrip`, which is translated from the source.  A digit run is
"standalone" when it is preceded by whitespace or the start of the text
and followed by whitespace or the end of the text; the Boolean argument
records whether the current scanning position is at the start of the text
or right after whitespace. -/
def digitStripSpecStandaloneAux : Nat → Bool → List Char → List Char
  | 0, _, l => l
  | _ + 1, _, [] => []
  | fuel + 1, boundary, c :: rest =>
    let l := c :: rest
    let ws := l.takeWhile isPySpace
    let r1 := l.dropWhile isPySpace
    let ds := r1.takeWhile Char.isDigit
    let r2 := r1.dropWhile Char.isDigit
    let rightOk : Bool := match r2 with | [] => true | d :: _ => isPySpace d
    if ds ≠ [] ∧ (boundary = true ∨ ws ≠ []) ∧ rightOk = true then
      ' ' :: digitStripSpecStandaloneAux fuel true (r2.dropWhile isPySpace)
    else
      c :: digitStripSpecStandaloneAux fuel (isPySpace c) rest

/-- The spec-worded standalone-only digit stripping (claim C3). -/
def digitStripSpecStandalone (l : List Char) : List Char :=
  digitStripSpecStandaloneAux l.length true l

/-! ### Helper lemmas: `takeWhile` / `dropWhile` over runs, character classes -/

theorem takeWhile_append_all {α : Type} {p : α → Bool} {xs : List α} (ys : List α)
    (h : ∀ a ∈ xs, p a = true) : (xs ++ ys).takeWhile p = xs ++ ys.takeWhile p := by
  induction xs with
  | nil => simp
  | cons x xt ih =>
    rw [List.cons_append, List.takeWhile_cons_of_pos (h x (by simp)), List.cons_append,
      ih (fun a ha => h a (by simp [ha]))]

theorem dropWhile_append_all {α : Type} {p : α → Bool} {xs : List α} (ys : List α)
    (h : ∀ a ∈ xs, p a = true) : (xs ++ ys).dropWhile p = ys.dropWhile p := by
  induction xs with
  | nil => simp
  | cons x xt ih =>
    rw [List.cons_append, List.dropWhile_cons_of_pos (h x (by simp)),
      ih (fun a ha => h a (by simp [ha]))]

theorem takeWhile_eq_self_of_all {α : Type} {p : α → Bool} {xs : List α}
    (h : ∀ a ∈ xs, p a = true) : xs.takeWhile p = xs := by
  induction xs with
  | nil => rfl
  | cons x xt ih =>
    rw [List.takeWhile_cons_of_pos (h x (by simp)), ih (fun a ha => h a (by simp [ha]))]

theorem dropWhile_eq_nil_of_all {α : Type} {p : α → Bool} {xs : List α}
    (h : ∀ a ∈ xs, p a = true) : xs.dropWhile p = [] := by
  induction xs with
  | nil => rfl
  | cons x xt ih =>
    rw [List.dropWhile_cons_of_pos (h x (by simp)), ih (fun a ha => h a (by simp [ha]))]

theorem takeWhile_eq_nil_of_all_not {α : Type} {p : α → Bool} {xs : List α}
    (h : ∀ a ∈ xs, p a = false) : xs.takeWhile p = [] := by
  cases xs with
  | nil => rfl
  | cons x xt => exact List.takeWhile_cons_of_neg (by simp [h x (by simp)])

theorem dropWhile_eq_self_of_all_not {α : Type} {p : α → Bool} {xs : List α}
    (h : ∀ a ∈ xs, p a = false) : xs.dropWhile p = xs := by
  cases xs with
  | nil => rfl
  | cons x xt => exact List.dropWhile_cons_of_neg (by simp [h x (by simp)])

theorem head_dropWhile_not {α : Type} {p : α → Bool} {l : List α} {a : α}
    (h : (l.dropWhile p).head? = some a) : p a = false := by
  induction l with
  | nil => simp [List.dropWhile] at h
  | cons c t ih =>
    by_cases hc : p c = true
    · rw [List.dropWhile_cons_of_pos hc] at h
      exact ih h
    · rw [List.dropWhile_cons_of_neg hc] at h
      simp only [List.head?_cons, Option.some.injEq] at h
      subst h
      exact Bool.eq_false_iff.mpr hc

theorem getLast_dropWhile_ne_nil {α : Type} {p : α → Bool} {l : List α}
    (h : l.dropWhile p ≠ []) : (l.dropWhile p).getLast? = l.getLast? := by
  induction l with
  | nil => simp [List.dropWhile] at h
  | cons c t ih =>
    by_cases hc : p c = true
    · rw [List.dropWhile_cons_of_pos hc] at h ⊢
      have ht : t ≠ [] := by
        intro he
        rw [he] at h
        simp [List.dropWhile] at h
      obtain ⟨d, t', rfl⟩ := List.exists_cons_of_ne_nil ht
      rw [ih h, List.getLast?_cons_cons]
    · rw [List.dropWhile_cons_of_neg hc]

theorem pySpace_cases {c : Char} (h : isPySpace c = true) :
    c = ' ' ∨ c = '\t' ∨ c = '\n' ∨ c = '\r' ∨ c = Char.ofNat 11 ∨ c = Char.ofNat 12 := by
  simp only [isPySpace, Bool.or_eq_true, beq_iff_eq] at h
  tauto

theorem word_not_pySpace {c : Char} (h : isWordChar c = true) : isPySpace c = false := by
  cases hp : isPySpace c with
  | false => rfl
  | true =>
    rcases pySpace_cases hp with rfl | rfl | rfl | rfl | rfl | rfl <;>
      exact absurd h (by decide)

theorem digit_not_pySpace {c : Char} (h : Char.isDigit c = true) : isPySpace c = false := by
  cases hp : isPySpace c with
  | false => rfl
  | true =>
    rcases pySpace_cases hp with rfl | rfl | rfl | rfl | rfl | rfl <;>
      exact absurd h (by decide)

theorem pySpace_not_word {c : Char} (h : isPySpace c = true) : isWordChar c = false := by
  cases hw : isWordChar c with
  | false => rfl
  | true => rw [word_not_pySpace hw] at h; exact absurd h (by decide)

theorem pySpace_not_digit {c : Char} (h : isPySpace c = true) : Char.isDigit c = false := by
  cases hd : Char.isDigit c with
  | false => rfl
  | true => rw [digit_not_pySpace hd] at h; exact absurd h (by decide)

theorem collapseNewlines_cons (c : Char) (rest : List Char) :
    collapseNewlines (c :: rest) =
      if c = '\n' then
        if rest.head? = some '\n' then collapseNewlines rest
        else ' ' :: collapseNewlines rest
      else c :: collapseNewlines rest := by
  rfl

theorem hyphenMergeAux_nil (n : Nat) : hyphenMergeAux n [] = [] := by
  cases n <;> rfl

theorem digitStripAux_nil (n : Nat) : digitStripAux n [] = [] := by
  cases n <;> rfl

/-- One successful scanning step of `digitStripAux`. -/
theorem digitStripAux_step (fuel : Nat) {l : List Char} (hl : l ≠ [])
    (hds : (l.dropWhile isPySpace).takeWhile Char.isDigit ≠ []) :
    digitStripAux (fuel + 1) l =
      ' ' :: digitStripAux fuel
        (((l.dropWhile isPySpace).dropWhile Char.isDigit).dropWhile isPySpace) := by
  obtain ⟨c, rest, rfl⟩ := List.exists_cons_of_ne_nil hl
  simp only [digitStripAux]
  rw [if_pos hds]

/-- One successful scanning step of `hyphenMergeAux`. -/
theorem hyphenMergeAux_step (fuel : Nat) (c : Char) (rest : List Char)
    (h : isWordChar c = true ∧ ((c :: rest).dropWhile isWordChar).head? = some '-' ∧
      ((c :: rest).dropWhile isWordChar).tail.takeWhile isPySpace ≠ [] ∧
      (((c :: rest).dropWhile isWordChar).tail.dropWhile isPySpace).takeWhile isWordChar ≠ []) :
    hyphenMergeAux (fuel + 1) (c :: rest) =
      (c :: rest).takeWhile isWordChar ++
      (((c :: rest).dropWhile isWordChar).tail.dropWhile isPySpace).takeWhile isWordChar ++
      hyphenMergeAux fuel
        ((((c :: rest).dropWhile isWordChar).tail.dropWhile isPySpace).dropWhile isWordChar) := by
  simp only [hyphenMergeAux]
  rw [if_pos h]

theorem stripChars_head {l : List Char} {a : Char}
    (h : (stripChars l).head? = some a) : isPySpace a = false := by
  unfold stripChars at h
  rw [List.head?_reverse] at h
  by_cases hne : ((l.dropWhile isPySpace).reverse).dropWhile isPySpace = []
  · rw [hne] at h
    simp at h
  · rw [getLast_dropWhile_ne_nil hne, List.getLast?_reverse] at h
    exact head_dropWhile_not h

theorem stripChars_getLast {l : List Char} {a : Char}
    (h : (stripChars l).getLast? = some a) : isPySpace a = false := by
  unfold stripChars at h
  rw [List.getLast?_reverse] at h
  exact head_dropWhile_not h

/-- Shape of a successful `normalize` result. -/
theorem normalize_ok_eq {pages : List String} {s : String}
    (h : normalize pages = .ok s) :
    s = String.mk
      (cleanText (String.intercalate "\n" (pages.filter (fun t => t ≠ ""))).data) := by
  unfold normalize at h
  by_cases h1 : pages = []
  · rw [if_pos h1] at h
    exact Except.noConfusion h
  · rw [if_neg h1] at h
    by_cases h2 : pages.filter (fun t => t ≠ "") = []
    · rw [if_pos h2] at h
      exact Except.noConfusion h
    · rw [if_neg h2] at h
      injection h with h3
      exact h3.symm

example : normalize [] = .error .noPages := by rfl

example : normalize ["   ", ""] = .ok "" := by rfl

example : normalize ["   "] = .ok "" := by rfl

example : normalize ["Hello\nworld"] = .ok "Hello world" := by rfl

example : normalize ["A", "", "B"] = .ok "A B" := by rfl

example : normalize ["co-\noperative"] = .ok "cooperative" := by rfl

example : normalize ["Page 1\ntext here"] = .ok "Page text here" := by rfl

example : normalize ["a1b"] = .ok "a b" := by rfl

example : digitStripSpecStandalone ("a1b".data) = "a1b".data := by rfl

example : digitStripSpecStandalone ("Page 1 text".data) = "Page text".data := by rfl

/-! ### Claim theorems -/

/-- C1 counterexample: a document whose pages are whitespace-only is NOT
rejected — `normalize(["   ", ""])` succeeds with the empty string instead
of failing with `EmptyDocumentError`, because Python's `if text:` at
main.py line 20 keeps the truthy page `"   "`. -/
theorem normalize_whitespace_pages_succeeds : normalize ["   ", ""] = .ok "" := by
  rfl

/-- C1 (amended): `normalize` fails — necessarily with one of the two
errors the spec groups under `EmptyDocumentError` — exactly when every
page is the empty string (in particular on the empty page list, where it
fails with the no-pages error).  Whitespace-only pages are truthy in
Python, so they count as readable and do not trigger the failure. -/
theorem normalize_error_iff_all_pages_empty (pages : List String) :
    (∃ e, normalize pages = .error e ∧ EmptyDocumentError e) ↔ ∀ p ∈ pages, p = "" := by
  constructor
  · rintro ⟨e, he, -⟩ p hp
    by_contra hne
    have h1 : pages ≠ [] := by rintro rfl; simp at hp
    have h2 : pages.filter (fun t => t ≠ "") ≠ [] := by
      intro hf
      have hmem : p ∈ pages.filter (fun t => t ≠ "") :=
        List.mem_filter.mpr ⟨hp, by simpa using hne⟩
      rw [hf] at hmem
      simp at hmem
    unfold normalize at he
    rw [if_neg h1, if_neg h2] at he
    exact Except.noConfusion he
  · intro hall
    by_cases h1 : pages = []
    · subst h1
      exact ⟨.noPages, rfl, Or.inl rfl⟩
    · have h2 : pages.filter (fun t => t ≠ "") = [] := by
        apply List.eq_nil_iff_forall_not_mem.mpr
        intro x hx
        obtain ⟨hx1, hx2⟩ := List.mem_filter.mp hx
        rw [hall x hx1] at hx2
        simp at hx2
      unfold normalize
      rw [if_neg h1, if_pos h2]
      exact ⟨.noReadableText, rfl, Or.inr rfl⟩

/-- Witness for C1's amended theorem at the concrete page list
`["", ""]`. -/
theorem normalize_error_iff_all_pages_empty_witness :
    ∃ e, normalize ["", ""] = .error e ∧ EmptyDocumentError e :=
  (normalize_error_iff_all_pages_empty ["", ""]).mpr (by decide)

/-- C2 counterexample: the claimed non-emptiness guarantee is false — on
the whitespace-only document `["   "]`, `normalize` succeeds and returns
the empty string. -/
theorem normalize_ok_can_be_empty :
    ¬ (∀ (pages : List String) (s : String), normalize pages = .ok s → s ≠ "") :=
  fun h => h ["   "] "" (by rfl) rfl

/-- Every list produced by `stripChars` has whitespace at neither end. -/
theorem noEdge_of_stripChars (l : List Char) :
    ((stripChars l).head?.all fun c => !isPySpace c) = true ∧
    ((stripChars l).getLast?.all fun c => !isPySpace c) = true := by
  constructor
  · cases hh : (stripChars l).head? with
    | none => rfl
    | some a => simp [stripChars_head hh]
  · cases hh : (stripChars l).getLast? with
    | none => rfl
    | some a => simp [stripChars_getLast hh]

/-- C2 (amended): on success the returned string carries no leading and no
trailing whitespace (the final `strip()` of main.py line 36); it is NOT
guaranteed non-empty. -/
theorem normalize_ok_trimmed (pages : List String) (s : String)
    (h : normalize pages = .ok s) : noEdgeWhitespace s = true := by
  have hs := normalize_ok_eq h
  have h2 := noEdge_of_stripChars (digitStrip (hyphenMerge (collapseNewlines
      (String.intercalate "\n" (pages.filter (fun t => t ≠ ""))).data)))
  unfold noEdgeWhitespace
  rw [hs, Bool.and_eq_true]
  exact h2

/-- Witness for C2's amended theorem at the concrete document `["hi"]`. -/
theorem normalize_ok_trimmed_witness : noEdgeWhitespace "hi" = true :=
  normalize_ok_trimmed ["hi"] "hi" (by rfl)

/-- C6 (confirmed): every extraction-backend failure is re-signalled as
the single generic unreadable-document `ValueError` of main.py line 41;
the user-facing message is the fixed `genericErrorMessage`, identical for
all backend exception texts, so it exposes nothing of the original
error. -/
theorem backend_failure_generic (e : String) :
    extract_and_clean_text_from_pdf (.error e) = .error genericErrorMessage ∧
    ∀ e2, extract_and_clean_text_from_pdf (.error e) =
      extract_and_clean_text_from_pdf (.error e2) :=
  ⟨rfl, fun _ => rfl⟩

/-- C7 (confirmed): the cleaning function is a pure function of its input
pages — equal inputs give equal outputs.  (In this shallow embedding
`normalize` is a Lean function, mirroring the Python code, which only
builds new immutable strings and never mutates its input.) -/
theorem normalize_deterministic (p1 p2 : List String) (h : p1 = p2) :
    normalize p1 = normalize p2 := by
  rw [h]

/-- Witness for C7 at a concrete input. -/
theorem normalize_deterministic_witness :
    normalize ["Hello\nworld"] = normalize ["Hello\nworld"] :=
  normalize_deterministic ["Hello\nworld"] ["Hello\nworld"] rfl

/-- C8 (code bug): if `tmpfile.write` raises after
`NamedTemporaryFile(delete=False)` has created the file (main.py lines
107-109), the name `tmp_pdf_path` is never bound, so the `finally` block's
`'tmp_pdf_path' in locals()` guard (line 166) skips `os.remove` and the
temporary file remains on disk — contradicting deletion on every exit
path.  On every run in which the write succeeds, the file is deleted
whatever `extract_and_clean_text_from_pdf` does. -/
theorem temp_file_remains_on_write_failure :
    handle_message ⟨true, true, false, .ok "text"⟩ = true ∧
    (∀ outcome, handle_message ⟨true, true, true, outcome⟩ = false) := by
  refine ⟨rfl, fun outcome => ?_⟩
  cases outcome <;> rfl

/-- C9 (confirmed): `summarize_text` is template interpolation into a
fixed instruction string — a fixed instruction before the text, the text,
then a fixed tail — and the input text occurs verbatim inside the result.
In this embedding `summarize_text` is a plain `String → String` function:
no language model is invoked; the prompt is returned unexecuted. -/
theorem summarize_text_is_template (text : String) :
    summarize_text text = summaryInstructionBefore ++ text ++ summaryInstructionAfter ∧
    text.data <:+: (summarize_text text).data := by
  refine ⟨rfl, ⟨summaryInstructionBefore.data, summaryInstructionAfter.data, ?_⟩⟩
  show summaryInstructionBefore.data ++ text.data ++ summaryInstructionAfter.data =
    (summarize_text text).data
  rw [show summarize_text text =
      summaryInstructionBefore ++ text ++ summaryInstructionAfter from rfl,
    String.data_append, String.data_append]

/-- C10 (confirmed): `generate_quiz` always returns a one-element list:
the fixed apology on empty input, and otherwise a quiz prompt that
contains the input text verbatim. -/
theorem generate_quiz_single (t : String) :
    ∃ q, generate_quiz t = [q] ∧
      (t = "" → q = "No quiz can be generated for empty text.") ∧
      (t ≠ "" → t.data <:+: q.data) := by
  by_cases h : t = ""
  · subst h
    exact ⟨"No quiz can be generated for empty text.", rfl, fun _ => rfl,
      fun hne => absurd rfl hne⟩
  · refine ⟨quizInstructionBefore ++ t ++ quizInstructionAfter, ?_,
      fun he => absurd he h,
      fun _ => ⟨quizInstructionBefore.data, quizInstructionAfter.data, ?_⟩⟩
    · unfold generate_quiz
      rw [if_neg h]
      rfl
    · show quizInstructionBefore.data ++ t.data ++ quizInstructionAfter.data =
        (quizInstructionBefore ++ t ++ quizInstructionAfter).data
      rw [String.data_append, String.data_append]

/-- C3 counterexample: the digit-removal pass does not strip only
standalone digit runs surrounded by whitespace — `\s*` matches the empty
string, so the `"1"` embedded in the word `"a1b"` is stripped as well
(`normalize(["a1b"]) = "a b"`), while the spec-worded standalone-only
stripping `digitStripSpecStandalone` leaves `"a1b"` unchanged. -/
theorem digit_strip_strips_embedded_digits :
    normalize ["a1b"] = .ok "a b" ∧
    digitStrip ("a1b".data) = "a b".data ∧
    digitStripSpecStandalone ("a1b".data) = "a1b".data :=
  ⟨by rfl, by rfl, by rfl⟩

/-- C3 (amended): the cleaning step replaces every leftmost-scanned match
of optional whitespace, a nonempty digit run, optional whitespace by a
single space.  On a standalone digit run with its surrounding whitespace
this gives exactly the claimed behaviour (first conjunct, and
`normalize(["Page 1\ntext here"]) = "Page text here"`), but digit runs
embedded in words are stripped too (`normalize(["a1b"]) = "a b"`), so the
removal is not limited to standalone runs. -/
theorem digit_strip_amended (ws1 ds ws2 : List Char)
    (hws1 : ∀ c ∈ ws1, isPySpace c = true)
    (hds : ds ≠ []) (hdsd : ∀ c ∈ ds, Char.isDigit c = true)
    (hws2 : ∀ c ∈ ws2, isPySpace c = true) :
    digitStrip (ws1 ++ ds ++ ws2) = [' '] ∧
    normalize ["Page 1\ntext here"] = .ok "Page text here" ∧
    normalize ["a1b"] = .ok "a b" := by
  refine ⟨?_, by rfl, by rfl⟩
  obtain ⟨d, dst, rfl⟩ := List.exists_cons_of_ne_nil hds
  have hdnotsp : ¬ isPySpace d = true := by
    simp [digit_not_pySpace (hdsd d (by simp))]
  have h1 : ((ws1 ++ (d :: dst)) ++ ws2).dropWhile isPySpace = (d :: dst) ++ ws2 := by
    rw [List.append_assoc, dropWhile_append_all _ hws1, List.cons_append,
      List.dropWhile_cons_of_neg hdnotsp]
  have h2 : ((d :: dst) ++ ws2).takeWhile Char.isDigit
      = (d :: dst) ++ ws2.takeWhile Char.isDigit :=
    takeWhile_append_all _ hdsd
  have h3 : ws2.takeWhile Char.isDigit = [] :=
    takeWhile_eq_nil_of_all_not (fun c hc => pySpace_not_digit (hws2 c hc))
  have h4 : ((d :: dst) ++ ws2).dropWhile Char.isDigit = ws2 := by
    rw [dropWhile_append_all _ hdsd]
    exact dropWhile_eq_self_of_all_not (fun c hc => pySpace_not_digit (hws2 c hc))
  have h5 : ws2.dropWhile isPySpace = [] := dropWhile_eq_nil_of_all hws2
  have hne : (ws1 ++ (d :: dst)) ++ ws2 ≠ [] := by simp
  have hds' : (((ws1 ++ (d :: dst)) ++ ws2).dropWhile isPySpace).takeWhile Char.isDigit ≠ [] := by
    rw [h1, h2, h3, List.append_nil]
    simp
  have hlen : ((ws1 ++ (d :: dst)) ++ ws2).length
      = ((ws1 ++ (d :: dst)) ++ ws2).length - 1 + 1 := by
    cases hL : (ws1 ++ (d :: dst)) ++ ws2 with
    | nil => exact absurd hL hne
    | cons c rest => simp
  unfold digitStrip
  rw [hlen, digitStripAux_step _ hne hds', h1, h4, h5, digitStripAux_nil]

/-- Witness for C3's amended theorem at the standalone run `" 1 "`. -/
theorem digit_strip_amended_witness :
    digitStrip ([' '] ++ ['1'] ++ [' ']) = [' '] ∧
      normalize ["Page 1\ntext here"] = .ok "Page text here" ∧
      normalize ["a1b"] = .ok "a b" :=
  digit_strip_amended [' '] ['1'] [' '] (by decide) (by decide) (by decide) (by decide)

/-- C4 (confirmed): an occurrence of word characters, a hyphen, whitespace,
word characters is merged by deleting the hyphen and the whitespace — the
two word runs are concatenated; and
`normalize(["co-\noperative"]) = "cooperative"`. -/
theorem hyphen_rejoin (w1 ws w2 : List Char)
    (hw1 : w1 ≠ []) (hw1w : ∀ c ∈ w1, isWordChar c = true)
    (hws : ws ≠ []) (hwss : ∀ c ∈ ws, isPySpace c = true)
    (hw2 : w2 ≠ []) (hw2w : ∀ c ∈ w2, isWordChar c = true) :
    hyphenMerge (w1 ++ '-' :: (ws ++ w2)) = w1 ++ w2 ∧
    normalize ["co-\noperative"] = .ok "cooperative" := by
  refine ⟨?_, by rfl⟩
  obtain ⟨a, w1t, rfl⟩ := List.exists_cons_of_ne_nil hw1
  obtain ⟨b, w2t, rfl⟩ := List.exists_cons_of_ne_nil hw2
  have hcons : (a :: w1t) ++ '-' :: (ws ++ b :: w2t)
      = a :: (w1t ++ '-' :: (ws ++ b :: w2t)) := rfl
  have hbnotsp : ¬ isPySpace b = true := by
    simp [word_not_pySpace (hw2w b (by simp))]
  have htake : ((a :: w1t) ++ '-' :: (ws ++ b :: w2t)).takeWhile isWordChar = a :: w1t := by
    rw [takeWhile_append_all _ hw1w, List.takeWhile_cons_of_neg (by decide), List.append_nil]
  have hdrop : ((a :: w1t) ++ '-' :: (ws ++ b :: w2t)).dropWhile isWordChar
      = '-' :: (ws ++ b :: w2t) := by
    rw [dropWhile_append_all _ hw1w, List.dropWhile_cons_of_neg (by decide)]
  have hwsb : (ws ++ b :: w2t).takeWhile isPySpace = ws := by
    rw [takeWhile_append_all _ hwss, List.takeWhile_cons_of_neg hbnotsp, List.append_nil]
  have hdropws : (ws ++ b :: w2t).dropWhile isPySpace = b :: w2t := by
    rw [dropWhile_append_all _ hwss, List.dropWhile_cons_of_neg hbnotsp]
  have htakew2 : (b :: w2t).takeWhile isWordChar = b :: w2t := takeWhile_eq_self_of_all hw2w
  have hdropw2 : (b :: w2t).dropWhile isWordChar = [] := dropWhile_eq_nil_of_all hw2w
  have hcond : isWordChar a = true ∧
      ((a :: (w1t ++ '-' :: (ws ++ b :: w2t))).dropWhile isWordChar).head? = some '-' ∧
      ((a :: (w1t ++ '-' :: (ws ++ b :: w2t))).dropWhile isWordChar).tail.takeWhile
        isPySpace ≠ [] ∧
      (((a :: (w1t ++ '-' :: (ws ++ b :: w2t))).dropWhile isWordChar).tail.dropWhile
        isPySpace).takeWhile isWordChar ≠ [] := by
    rw [← hcons, hdrop]
    refine ⟨hw1w a (by simp), rfl, ?_, ?_⟩
    · rw [List.tail_cons, hwsb]
      exact hws
    · rw [List.tail_cons, hdropws, htakew2]
      simp
  unfold hyphenMerge
  rw [hcons, List.length_cons, hyphenMergeAux_step _ _ _ hcond, ← hcons, htake, hdrop,
    List.tail_cons, hdropws, htakew2, hdropw2, hyphenMergeAux_nil, List.append_nil]

/-- Witness for C4's theorem at the words of the spec's example. -/
theorem hyphen_rejoin_witness :
    hyphenMerge (['c','o'] ++ '-' :: ([' '] ++ ['o','p','e','r','a','t','i','v','e']))
        = ['c','o'] ++ ['o','p','e','r','a','t','i','v','e'] ∧
      normalize ["co-\noperative"] = .ok "cooperative" :=
  hyphen_rejoin ['c','o'] [' '] ['o','p','e','r','a','t','i','v','e']
    (by decide) (by decide) (by decide) (by decide) (by decide) (by decide)

/-- Every run of one or more newlines collapses to one space: helper for
claim C5, by induction on the text before the run. -/
theorem collapseNewlines_run (a : List Char) (k : Nat) (b : List Char)
    (ha : ∀ c ∈ a, c ≠ '\n') (hb : b.head? ≠ some '\n') :
    collapseNewlines (a ++ List.replicate (k + 1) '\n' ++ b)
      = a ++ ' ' :: collapseNewlines b := by
  induction a with
  | nil =>
    simp only [List.nil_append]
    induction k with
    | zero =>
      rw [List.replicate_succ, List.replicate_zero, List.cons_append, List.nil_append]
      rw [collapseNewlines_cons, if_pos rfl, if_neg hb]
    | succ k ih =>
      have hhead : (List.replicate (k + 1) '\n' ++ b).head? = some '\n' := by
        rw [List.replicate_succ, List.cons_append]
        rfl
      rw [List.replicate_succ, List.cons_append]
      rw [collapseNewlines_cons, if_pos rfl, if_pos hhead]
      exact ih
  | cons x a' ih =>
    have hx : x ≠ '\n' := ha x (by simp)
    have ih' := ih (fun c hc => ha c (by simp [hc]))
    rw [List.cons_append, List.cons_append]
    rw [collapseNewlines_cons, if_neg hx, ih', List.cons_append]

/-- C5 (confirmed): the non-empty page texts are joined with a newline
separator in page order, and every run of one or more newline characters
collapses to a single space; `normalize(["Hello\nworld"]) = "Hello world"`,
and on `["A", "", "B"]` the empty page is dropped and the pages are joined
in order, giving `"A B"`. -/
theorem newline_collapse (a : List Char) (k : Nat) (b : List Char)
    (ha : ∀ c ∈ a, c ≠ '\n') (hb : b.head? ≠ some '\n') :
    collapseNewlines (a ++ List.replicate (k + 1) '\n' ++ b)
        = a ++ ' ' :: collapseNewlines b ∧
    normalize ["Hello\nworld"] = .ok "Hello world" ∧
    normalize ["A", "", "B"] = .ok "A B" :=
  ⟨collapseNewlines_run a k b ha hb, by rfl, by rfl⟩

/-- Witness for C5's theorem at `"H"`, one newline, `"w"`. -/
theorem newline_collapse_witness :
    collapseNewlines (['H'] ++ List.replicate (0 + 1) '\n' ++ ['w'])
        = ['H'] ++ ' ' :: collapseNewlines ['w'] ∧
      normalize ["Hello\nworld"] = .ok "Hello world" ∧
      normalize ["A", "", "B"] = .ok "A B" :=
  newline_collapse ['H'] 0 ['w'] (by decide) (by decide)

/-- Witness for C10 at the concrete input `"abc"`. -/
theorem generate_quiz_single_witness :
    ∃ q, generate_quiz "abc" = [q] ∧
      ("abc" = "" → q = "No quiz can be generated for empty text.") ∧
      ("abc" ≠ "" → ("abc" : String).data <:+: q.data) :=
  generate_quiz_single "abc"

end PdfSummarizer
